import Mathlib

/-!
Verification of python-rrmngmnt: a shallow embedding of the remote-management
kernel (host.py, playbook_runner.py, ssh.py, common.py) together with proofs
about the service-provider resolver, the playbook runners, the SSH session
exception handling, output normalization and the host user collection.
-/

set_option autoImplicit false

/- ===== Path helpers (os.path, POSIX flavour, as used by the sources) ===== -/

/-- os.path.basename: the component after the last slash. -/
def basename (p : String) : String :=
  String.mk ((p.data.reverse.takeWhile (fun c => c ≠ '/')).reverse)

/-- Two-argument os.path.join on POSIX paths, as the sources use it: an
absolute second argument wins, otherwise the parts are glued with exactly
one slash. -/
def pathJoin (a b : String) : String :=
  if b.data.head? = some '/' then b
  else if a = "" then b
  else if a.data.getLast? = some '/' then a ++ b
  else a ++ "/" ++ b

/- ===== Service-provider resolver (host.py: Host.service, Host._create_service) ===== -/

/-- The three candidate service-provider classes, in the order of
`Host.default_service_providers` (host.py lines 38-42). -/
inductive SProvider where
  | systemd
  | sysvinit
  | initctl
deriving DecidableEq, Repr

/-- host.py line 38: `default_service_providers = [Systemd, SysVinit, InitCtl]`. -/
def default_service_providers : List SProvider :=
  [SProvider.systemd, SProvider.sysvinit, SProvider.initctl]

/-- A constructed system service: the provider class it was built from and the
service name (the result of `provider(self, name, timeout=timeout)`). -/
structure SystemService where
  provider : SProvider
  name : String
deriving DecidableEq, Repr

/-- Modelled from the spec: the constructor of a candidate provider class
(service.py, absent from src/) performs a cheap remote probe and either
succeeds or signals `CanNotHandle`.  `ch p n = true` means construction of
provider `p` for service name `n` succeeds. -/
def CanHandleOracle : Type := SProvider → String → Bool

/-- Result of one resolver call: the outcome (a constructed service, or the
raised error enumerating the candidate providers), the new memoized provider
of the Host, and the trace of construction attempts (probes), in order. -/
structure ResolveResult where
  outcome : Except (List SProvider) SystemService
  memo : Option SProvider
  probes : List SProvider
deriving Repr

/-- The provider loop of `Host._create_service` (host.py lines 424-434):
try each candidate in order, stop at the first constructor that does not
signal `CanNotHandle`.  Returns the chosen provider (if any) and the list of
providers whose constructors ran. -/
def probeProviders (ch : CanHandleOracle) (name : String) :
    List SProvider → Option SProvider × List SProvider
  | [] => (none, [])
  | p :: ps =>
    if ch p name then (some p, [p])
    else
      let r := probeProviders ch name ps
      (r.1, p :: r.2)

/-- `Host._create_service` (host.py lines 423-442): run the provider loop over
`default_service_providers`; on success memoize the chosen provider class and
return the service; if the loop exhausts, raise an error message enumerating
`default_service_providers`.  `memo0` is the provider memoized before the call
(unchanged when the call raises). -/
def create_service (memo0 : Option SProvider) (ch : CanHandleOracle)
    (name : String) : ResolveResult :=
  match probeProviders ch name default_service_providers with
  | (some p, tr) => ⟨Except.ok ⟨p, name⟩, some p, tr⟩
  | (none, tr) => ⟨Except.error default_service_providers, memo0, tr⟩

/-- `Host.service` (host.py lines 444-470): when no provider is memoized,
resolve via `_create_service` and memoize the class of the returned service;
when one is memoized, construct from it directly, falling back to a full
re-probe (and re-memoization) if that construction signals `CanNotHandle`. -/
def Host.service (memo : Option SProvider) (ch : CanHandleOracle)
    (name : String) : ResolveResult :=
  match memo with
  | none => create_service none ch name
  | some p =>
    if ch p name then ⟨Except.ok ⟨p, name⟩, some p, [p]⟩
    else
      let r := create_service (some p) ch name
      ⟨r.outcome, r.memo, p :: r.probes⟩

/- ===== sanity lemmas about the probe loop ===== -/

theorem probeProviders_eq_find (ch : CanHandleOracle) (name : String)
    (l : List SProvider) :
    (probeProviders ch name l).1 = l.find? (fun p => ch p name) := by
  induction l with
  | nil => rfl
  | cons p ps ih =>
    simp only [probeProviders, List.find?]
    by_cases h : ch p name <;> simp [h, ih]

theorem probeProviders_trace (ch : CanHandleOracle) (name : String)
    (l : List SProvider) :
    (probeProviders ch name l).2 =
      match l.find? (fun p => ch p name) with
      | some q => (l.takeWhile (fun p => !ch p name)) ++ [q]
      | none => l := by
  induction l with
  | nil => rfl
  | cons p ps ih =>
    by_cases h : ch p name
    · simp [probeProviders, h, List.find?_cons, List.takeWhile_cons]
    · cases hf : ps.find? (fun q => ch q name) with
      | some q =>
        simp [probeProviders, h, List.find?_cons, List.takeWhile_cons, ih, hf]
      | none =>
        simp [probeProviders, h, List.find?_cons, List.takeWhile_cons, ih, hf]

theorem create_service_of_find_some (memo0 : Option SProvider)
    (ch : CanHandleOracle) (name : String) (q : SProvider)
    (h : default_service_providers.find? (fun p => ch p name) = some q) :
    create_service memo0 ch name =
      ⟨Except.ok ⟨q, name⟩, some q,
        (default_service_providers.takeWhile (fun p => !ch p name)) ++ [q]⟩ := by
  have h1 := probeProviders_eq_find ch name default_service_providers
  have h2 := probeProviders_trace ch name default_service_providers
  rw [h] at h1 h2
  have h2' : (probeProviders ch name default_service_providers).2 =
      (default_service_providers.takeWhile (fun p => !ch p name)) ++ [q] := h2
  have hpair : probeProviders ch name default_service_providers =
      (some q, (default_service_providers.takeWhile (fun p => !ch p name)) ++ [q]) :=
    Prod.ext h1 h2'
  simp [create_service, hpair]

theorem create_service_of_find_none (memo0 : Option SProvider)
    (ch : CanHandleOracle) (name : String)
    (h : default_service_providers.find? (fun p => ch p name) = none) :
    create_service memo0 ch name =
      ⟨Except.error default_service_providers, memo0, default_service_providers⟩ := by
  have h1 := probeProviders_eq_find ch name default_service_providers
  have h2 := probeProviders_trace ch name default_service_providers
  rw [h] at h1 h2
  have h2' : (probeProviders ch name default_service_providers).2 =
      default_service_providers := h2
  have hpair : probeProviders ch name default_service_providers =
      (none, default_service_providers) :=
    Prod.ext h1 h2'
  simp [create_service, hpair]

/-- C1: with no memoized provider, `Host.service name` probes the candidates
in the fixed order [Systemd, SysVinit, InitCtl], stopping at and memoizing the
first whose construction does not signal CanNotHandle; a subsequent call for
any other name that the memoized provider can handle constructs directly from
it, its probe trace being exactly `[q]` — no earlier candidate is probed
again. -/
theorem service_memoizes_first_success_and_skips_probe
    (ch : CanHandleOracle) (name : String) (q : SProvider)
    (h : default_service_providers.find? (fun p => ch p name) = some q) :
    Host.service none ch name =
      ⟨Except.ok ⟨q, name⟩, some q,
        (default_service_providers.takeWhile (fun p => !ch p name)) ++ [q]⟩ ∧
    (∀ name2 : String, ch q name2 = true →
      Host.service (some q) ch name2 = ⟨Except.ok ⟨q, name2⟩, some q, [q]⟩) := by
  constructor
  · show create_service none ch name = _
    exact create_service_of_find_some none ch name q h
  · intro name2 h2
    simp [Host.service, h2]

/-- Oracle for the C1 witness: only SysVinit construction succeeds. -/
def chW1 : CanHandleOracle := fun p _ => p = SProvider.sysvinit

theorem service_memoizes_first_success_and_skips_probe_witness :
    Host.service none chW1 "sshd" =
      ⟨Except.ok ⟨SProvider.sysvinit, "sshd"⟩, some SProvider.sysvinit,
        [SProvider.systemd, SProvider.sysvinit]⟩ ∧
    Host.service (some SProvider.sysvinit) chW1 "crond" =
      ⟨Except.ok ⟨SProvider.sysvinit, "crond"⟩, some SProvider.sysvinit,
        [SProvider.sysvinit]⟩ := by
  have h := service_memoizes_first_success_and_skips_probe chW1 "sshd"
    SProvider.sysvinit (by decide)
  exact ⟨h.1.trans (by rfl), h.2 "crond" (by decide)⟩

/-- C4: a `Host.service name` call whose memoized provider signals
CanNotHandle re-runs the full probe over all candidates: when some candidate
succeeds, the first such is re-memoized and its service returned; only when
every candidate fails does the call raise, the error payload enumerating the
candidate providers that were tried. -/
theorem service_reprobes_on_memoized_cannot_handle
    (ch : CanHandleOracle) (p : SProvider) (name : String)
    (hfail : ch p name = false) :
    (∀ q : SProvider,
      default_service_providers.find? (fun r => ch r name) = some q →
      Host.service (some p) ch name =
        ⟨Except.ok ⟨q, name⟩, some q,
          p :: ((default_service_providers.takeWhile (fun r => !ch r name)) ++ [q])⟩) ∧
    (default_service_providers.find? (fun r => ch r name) = none →
      Host.service (some p) ch name =
        ⟨Except.error default_service_providers, some p,
          p :: default_service_providers⟩) := by
  constructor
  · intro q hq
    simp only [Host.service, hfail, Bool.false_eq_true, if_false]
    rw [create_service_of_find_some (some p) ch name q hq]
  · intro hn
    simp only [Host.service, hfail, Bool.false_eq_true, if_false]
    rw [create_service_of_find_none (some p) ch name hn]

/-- Oracle for the C4 witness, successful re-probe: the memoized Systemd
cannot handle "special" but InitCtl can. -/
def chW4a : CanHandleOracle := fun p n => n = "special" && p = SProvider.initctl

/-- Oracle for the C4 witness, failing re-probe: nothing can handle anything. -/
def chW4b : CanHandleOracle := fun _ _ => false

theorem service_reprobes_on_memoized_cannot_handle_witness :
    Host.service (some SProvider.systemd) chW4a "special" =
      ⟨Except.ok ⟨SProvider.initctl, "special"⟩, some SProvider.initctl,
        [SProvider.systemd, SProvider.systemd, SProvider.sysvinit,
          SProvider.initctl]⟩ ∧
    Host.service (some SProvider.systemd) chW4b "sshd" =
      ⟨Except.error default_service_providers, some SProvider.systemd,
        SProvider.systemd :: default_service_providers⟩ := by
  constructor
  · have h := (service_reprobes_on_memoized_cannot_handle chW4a
      SProvider.systemd "special" (by decide)).1 SProvider.initctl (by decide)
    exact h.trans (by rfl)
  · exact (service_reprobes_on_memoized_cannot_handle chW4b
      SProvider.systemd "sshd" (by decide)).2 (by decide)

/- ===== Playbook execution =====
   Two implementations live in the sources: the older `Host.run_playbook`
   (host.py lines 279-396) and the newer `PlaybookRunner.run`
   (playbook_runner.py).  Both are embedded below. -/

/-- A string of `n` copies of character `c` (Python `c * n`). -/
def repeatChar (c : Char) (n : Nat) : String :=
  String.mk (List.replicate n c)

/-- ssh.py line 349: `PlaybookExecutor.playbook_cmd`. -/
def PlaybookExecutor.playbook_cmd : String := "ansible-playbook"

/-- ssh.py line 350: `PlaybookExecutor.check_mode_param`. -/
def PlaybookExecutor.check_mode_param : String := "--check"

/-- The command list composed by `Host.run_playbook` (host.py lines 362-375):
the initial literal `[playbook_cmd, verbosity, "-i", inventory]` followed by
the conditional appends, in program order.  `extra_vars` is whether a
non-empty extra-vars dict was passed; `inventory` is the caller-supplied
inventory path, if any. -/
def host_run_playbook_cmd (playbook_path_local : String)
    (playbook_remote_dir : String) (extra_vars : Bool)
    (run_in_check_mode : Bool) (vars_files : List String)
    (verbose_level : Nat) (inventory : Option String) : List String :=
  let playbook_path_remote :=
    pathJoin playbook_remote_dir (basename playbook_path_local)
  let extra_vars_file := pathJoin playbook_remote_dir "extra_vars.json"
  let inv := match inventory with
    | none => pathJoin playbook_remote_dir "inventory"
    | some i => pathJoin playbook_remote_dir (basename i)
  [PlaybookExecutor.playbook_cmd, "-" ++ repeatChar 'v' verbose_level,
    "-i", inv]
  ++ (if extra_vars then ["-e@" ++ extra_vars_file] else [])
  ++ (vars_files.map (fun f => "-e@" ++ pathJoin playbook_remote_dir (basename f)))
  ++ (if run_in_check_mode then [PlaybookExecutor.check_mode_param] else [])
  ++ [playbook_path_remote]

/-- playbook_runner.py lines 23-28: the class constants of PlaybookRunner. -/
def PlaybookRunner.tmp_dir : String := "/tmp"

def PlaybookRunner.binary : String := "ansible-playbook"

def PlaybookRunner.extra_vars_file : String := "extra_vars.json"

def PlaybookRunner.default_inventory_name : String := "inventory"

def PlaybookRunner.default_inventory_content : String :=
  "localhost ansible_connection=local"

def PlaybookRunner.check_mode_param : String := "--check"

/-- playbook_runner.py line 46: the scratch directory
`os.path.join(self.tmp_dir, self.short_run_uuid)`. -/
def exec_dir_path (short_run_uuid : String) : String :=
  pathJoin PlaybookRunner.tmp_dir short_run_uuid

/-- One remote filesystem operation issued through `self.host.fs`.
`rmdirTree` is `FileSystem.rmdir` (filesystem.py line 31: `rm -rf`);
`put` and `createFile` are modelled from the spec ("stage files",
"extra-vars are serialized as JSON"), their bodies being absent from src/. -/
inductive FsEffect where
  | rmdirTree (path : String)
  | mkdir (path : String)
  | put (src : String) (dst : String)
  | createFile (content : String) (path : String)
deriving DecidableEq, Repr

/-- The remote filesystem effects of the body of `PlaybookRunner.run`
(playbook_runner.py lines 118-138), in program order: dump extra vars,
upload vars files, upload or synthesize the inventory, upload the playbook.
`extra_vars` carries the JSON dump of the dict when one was passed. -/
def runner_body_effects (dir : String) (extra_vars : Option String)
    (vars_files : List String) (inventory : Option String)
    (playbook : String) : List FsEffect :=
  (match extra_vars with
    | some js =>
      [FsEffect.createFile js (pathJoin dir PlaybookRunner.extra_vars_file)]
    | none => [])
  ++ vars_files.map (fun f => FsEffect.put f (pathJoin dir (basename f)))
  ++ (match inventory with
    | some i => [FsEffect.put i (pathJoin dir (basename i))]
    | none =>
      [FsEffect.createFile PlaybookRunner.default_inventory_content
        (pathJoin dir PlaybookRunner.default_inventory_name)])
  ++ [FsEffect.put playbook (pathJoin dir (basename playbook))]

/-- The arguments appended to `self.cmd` by one `PlaybookRunner.run` call
(playbook_runner.py lines 118-138), in program order. -/
def runner_args (dir : String) (extra_vars : Option String)
    (vars_files : List String) (inventory : Option String)
    (verbose_level : Nat) (run_in_check_mode : Bool)
    (playbook : String) : List String :=
  (match extra_vars with
    | some _ => ["-e@" ++ pathJoin dir PlaybookRunner.extra_vars_file]
    | none => [])
  ++ vars_files.map (fun f => "-e@" ++ pathJoin dir (basename f))
  ++ ["-i",
    match inventory with
    | some i => pathJoin dir (basename i)
    | none => pathJoin dir PlaybookRunner.default_inventory_name]
  ++ ["-" ++ repeatChar 'v' verbose_level]
  ++ (if run_in_check_mode then [PlaybookRunner.check_mode_param] else [])
  ++ [pathJoin dir (basename playbook)]

/-- `PlaybookRunner.run` only appends to `self.cmd`: the command list it
executes is the instance's current `self.cmd` followed by this call's
arguments. -/
def runner_total_cmd (cmd0 : List String) (dir : String)
    (extra_vars : Option String) (vars_files : List String)
    (inventory : Option String) (verbose_level : Nat)
    (run_in_check_mode : Bool) (playbook : String) : List String :=
  cmd0 ++ runner_args dir extra_vars vars_files inventory verbose_level
    run_in_check_mode playbook

theorem runner_args_ne_nil (dir : String) (extra_vars : Option String)
    (vars_files : List String) (inventory : Option String)
    (verbose_level : Nat) (run_in_check_mode : Bool) (playbook : String) :
    runner_args dir extra_vars vars_files inventory verbose_level
      run_in_check_mode playbook ≠ [] := by
  simp [runner_args]

/-- C10: `self.cmd` is initialized to `[binary]` once at construction and
only appended to by `run()`: whatever a first `run()` call executed is a
proper prefix of what a second `run()` call on the same instance executes. -/
theorem runner_cmd_second_run_extends_first (dir : String)
    (ev1 ev2 : Option String) (vf1 vf2 : List String)
    (inv1 inv2 : Option String) (lvl1 lvl2 : Nat) (chk1 chk2 : Bool)
    (pb1 pb2 : String) :
    (∃ t : List String, t ≠ [] ∧
      runner_total_cmd
        (runner_total_cmd [PlaybookRunner.binary] dir ev1 vf1 inv1 lvl1 chk1 pb1)
        dir ev2 vf2 inv2 lvl2 chk2 pb2 =
      runner_total_cmd [PlaybookRunner.binary] dir ev1 vf1 inv1 lvl1 chk1 pb1
        ++ t) ∧
    runner_total_cmd [PlaybookRunner.binary] dir ev1 vf1 inv1 lvl1 chk1 pb1 ≠
      runner_total_cmd
        (runner_total_cmd [PlaybookRunner.binary] dir ev1 vf1 inv1 lvl1 chk1 pb1)
        dir ev2 vf2 inv2 lvl2 chk2 pb2 := by
  constructor
  · exact ⟨runner_args dir ev2 vf2 inv2 lvl2 chk2 pb2,
      runner_args_ne_nil dir ev2 vf2 inv2 lvl2 chk2 pb2, rfl⟩
  · intro h
    have h2 := congrArg List.length h
    simp only [runner_total_cmd, List.length_append] at h2
    have h3 := runner_args_ne_nil dir ev2 vf2 inv2 lvl2 chk2 pb2
    have h4 : (runner_args dir ev2 vf2 inv2 lvl2 chk2 pb2).length ≠ 0 := by
      simpa using h3
    omega

/-- C3: `PlaybookRunner.run` with extra vars and no custom inventory puts on
the command line, in this order: the `-e@<dir>/extra_vars.json` flag, then
`-i <dir>/inventory`, then the verbosity flag, then the playbook path; and
the synthesized default inventory file is created with content exactly
`localhost ansible_connection=local`. -/
theorem runner_run_extra_vars_order_and_default_inventory
    (uuid js : String) (vf : List String) (lvl : Nat) (chk : Bool)
    (pb : String) :
    List.Sublist
      ["-e@" ++ pathJoin (exec_dir_path uuid) "extra_vars.json",
        "-i", pathJoin (exec_dir_path uuid) "inventory",
        "-" ++ repeatChar 'v' lvl,
        pathJoin (exec_dir_path uuid) (basename pb)]
      (runner_total_cmd [PlaybookRunner.binary] (exec_dir_path uuid) (some js)
        vf none lvl chk pb) ∧
    FsEffect.createFile PlaybookRunner.default_inventory_content
        (pathJoin (exec_dir_path uuid) "inventory") ∈
      runner_body_effects (exec_dir_path uuid) (some js) vf none pb ∧
    PlaybookRunner.default_inventory_content =
      "localhost ansible_connection=local" := by
  refine ⟨?_, ?_, rfl⟩
  · simp only [runner_total_cmd, runner_args, List.append_assoc,
      List.singleton_append, List.cons_append, List.nil_append]
    refine List.Sublist.cons _ ?_
    refine List.Sublist.cons₂ _ ?_
    refine List.Sublist.trans ?_ (List.sublist_append_right _ _)
    refine List.Sublist.cons₂ _ ?_
    refine List.Sublist.cons₂ _ ?_
    refine List.Sublist.cons₂ _ ?_
    exact List.sublist_append_right _ _
  · simp [runner_body_effects, PlaybookRunner.default_inventory_name]

/-- C2: the command composed by `Host.run_playbook` is, in this fixed order:
the binary name, one verbosity flag (the character v repeated verbose_level
times, level 1-5, after a dash), `-i` and the inventory path, the optional
`-e@` extra-vars flags, the optional check-mode flag, and the playbook path
as the final argument. -/
theorem host_run_playbook_cmd_order (pb dir : String) (ev chk : Bool)
    (vf : List String) (lvl : Nat) (inv : Option String)
    (hmin : 1 ≤ lvl) (hmax : lvl ≤ 5) :
    host_run_playbook_cmd pb dir ev chk vf lvl inv =
      [PlaybookExecutor.playbook_cmd, "-" ++ repeatChar 'v' lvl, "-i",
        (match inv with
          | none => pathJoin dir "inventory"
          | some i => pathJoin dir (basename i))]
      ++ (if ev then ["-e@" ++ pathJoin dir "extra_vars.json"] else [])
      ++ (vf.map (fun f => "-e@" ++ pathJoin dir (basename f)))
      ++ (if chk then [PlaybookExecutor.check_mode_param] else [])
      ++ [pathJoin dir (basename pb)] ∧
    (host_run_playbook_cmd pb dir ev chk vf lvl inv).getLast? =
      some (pathJoin dir (basename pb)) ∧
    ("-" ++ repeatChar 'v' lvl).data = '-' :: List.replicate lvl 'v' := by
  refine ⟨rfl, ?_, ?_⟩
  · simp only [host_run_playbook_cmd]
    exact List.getLast?_concat _
  · simp [repeatChar]

theorem host_run_playbook_cmd_order_witness :
    host_run_playbook_cmd "/local/site.yml" "/root" true true ["/local/a.yml"]
        1 none =
      ["ansible-playbook", "-v", "-i", "/root/inventory",
        "-e@/root/extra_vars.json", "-e@/root/a.yml", "--check",
        "/root/site.yml"] ∧
    (host_run_playbook_cmd "/local/site.yml" "/root" true true ["/local/a.yml"]
        1 none).getLast? = some "/root/site.yml" ∧
    ("-" ++ repeatChar 'v' 1).data = '-' :: List.replicate 1 'v' := by
  have h := host_run_playbook_cmd_order "/local/site.yml" "/root" true true
    ["/local/a.yml"] 1 none (by decide) (by decide)
  refine ⟨h.1.trans (by rfl), ?_, h.2.2⟩
  rw [h.2.1]
  rfl

/- ===== Scratch-directory lifecycle of PlaybookRunner (C7) ===== -/

/-- Effect of one remote filesystem operation on the set of existing remote
paths.  `rmdirTree` is `rm -rf` (filesystem.py line 35): it deletes the path
and everything below it; the other operations create their target path. -/
def applyFsEffect (fs : List String) : FsEffect → List String
  | FsEffect.rmdirTree p =>
    fs.filter (fun q => !(q == p || (p ++ "/").isPrefixOf q))
  | FsEffect.mkdir p => p :: fs
  | FsEffect.put _ dst => dst :: fs
  | FsEffect.createFile _ p => p :: fs

/-- The remote filesystem operations of one `PlaybookRunner.run` call, as
ordered by `_exec_dir` (playbook_runner.py lines 42-54): remove any stale
scratch directory, create it, run the body, and in the `finally` block remove
the scratch directory again.  `k` is the number of body staging steps that
completed before an exception (taking `k` past the body length gives the
success path): the trailing removal happens for every `k`. -/
def runner_run_effects (uuid : String) (extra_vars : Option String)
    (vars_files : List String) (inventory : Option String)
    (playbook : String) (k : Nat) : List FsEffect :=
  [FsEffect.rmdirTree (exec_dir_path uuid),
    FsEffect.mkdir (exec_dir_path uuid)]
  ++ (runner_body_effects (exec_dir_path uuid) extra_vars vars_files
      inventory playbook).take k
  ++ [FsEffect.rmdirTree (exec_dir_path uuid)]

theorem not_mem_apply_rmdirTree (fs : List String) (p : String) :
    p ∉ applyFsEffect fs (FsEffect.rmdirTree p) := by
  simp [applyFsEffect, List.mem_filter]

/-- C7: whatever the starting remote filesystem and wherever the run stopped
(success, or an exception after `k` staging steps), the scratch directory
`<tmp_dir>/<short_run_uuid>` does not exist once `PlaybookRunner.run` is
over; the stale directory of the same name is removed by the first operation
of the run, before the setup recreates it. -/
theorem runner_scratch_dir_gone_after_run (uuid : String)
    (extra_vars : Option String) (vars_files : List String)
    (inventory : Option String) (playbook : String) (k : Nat)
    (fs : List String) :
    exec_dir_path uuid ∉
      (runner_run_effects uuid extra_vars vars_files inventory playbook
        k).foldl applyFsEffect fs ∧
    exec_dir_path uuid ∉
      applyFsEffect fs (FsEffect.rmdirTree (exec_dir_path uuid)) ∧
    (runner_run_effects uuid extra_vars vars_files inventory playbook
        k).take 2 =
      [FsEffect.rmdirTree (exec_dir_path uuid),
        FsEffect.mkdir (exec_dir_path uuid)] := by
  refine ⟨?_, not_mem_apply_rmdirTree fs _, by simp [runner_run_effects]⟩
  simp only [runner_run_effects, List.cons_append, List.nil_append,
    List.foldl_cons, List.foldl_append, List.foldl_nil]
  exact not_mem_apply_rmdirTree _ _

/- ===== SSH session exception handling (ssh.py: RemoteExecutor.Session) ===== -/

/-- The class of a propagating Python exception, as far as
`Session.__exit__` inspects it (`type_ is socket.timeout`). -/
inductive ExcKind where
  | socketTimeout
  | other (tag : Nat)
deriving DecidableEq, Repr

/-- A propagating exception: its class, its `args` message tuple and the
`_updated` marker set by `_update_timeout_exception`. -/
structure PyExc where
  kind : ExcKind
  args : List String
  updated : Bool
deriving DecidableEq, Repr

/-- `Session._update_timeout_exception` (ssh.py lines 108-117): a no-op on an
exception already carrying `_updated`; otherwise replaces the args with the
single `address: timeout(value)` message (the value defaulting to the
session timeout) and marks the exception. -/
def update_timeout_exception (address : String) (sessionTimeout : String)
    (timeout : Option String) (ex : PyExc) : PyExc :=
  if ex.updated then ex
  else
    { ex with
      args := [address ++ ": timeout(" ++ timeout.getD sessionTimeout ++ ")"],
      updated := true }

/-- C5: the timeout decoration step is idempotent — re-applying it (from any
layer, with any address or timeout value) to an already-annotated exception
changes nothing — and a first application leaves exactly one
`address: timeout(value)` annotation as the whole message. -/
theorem update_timeout_exception_idempotent (a1 a2 s1 s2 : String)
    (t1 t2 : Option String) (ex : PyExc) :
    update_timeout_exception a2 s2 t2
        (update_timeout_exception a1 s1 t1 ex) =
      update_timeout_exception a1 s1 t1 ex ∧
    (update_timeout_exception a1 s1 t1 ex).updated = true ∧
    (ex.updated = false →
      (update_timeout_exception a1 s1 t1 ex).args =
        [a1 ++ ": timeout(" ++ t1.getD s1 ++ ")"]) := by
  by_cases h : ex.updated
  · exact ⟨by simp [update_timeout_exception, h],
      by simp [update_timeout_exception, h],
      fun hf => by rw [h] at hf; cases hf⟩
  · exact ⟨by simp [update_timeout_exception, h],
      by simp [update_timeout_exception, h],
      fun _ => by simp [update_timeout_exception, h]⟩

theorem update_timeout_exception_idempotent_witness :
    update_timeout_exception "addr" "10.0" none
        (update_timeout_exception "addr" "10.0" none
          ⟨ExcKind.socketTimeout, ["timed out"], false⟩) =
      update_timeout_exception "addr" "10.0" none
        ⟨ExcKind.socketTimeout, ["timed out"], false⟩ ∧
    (update_timeout_exception "addr" "10.0" none
        ⟨ExcKind.socketTimeout, ["timed out"], false⟩).args =
      ["addr: timeout(10.0)"] := by
  have h := update_timeout_exception_idempotent "addr" "addr" "10.0" "10.0"
    none none ⟨ExcKind.socketTimeout, ["timed out"], false⟩
  exact ⟨h.1, (h.2.2 rfl).trans (by rfl)⟩

/-- `Session.__exit__` (ssh.py lines 70-81): annotate a propagating socket
timeout, then close the connection; a close failure is re-raised only when no
exception from the scope body is propagating, and is logged otherwise.
Returns the exception that propagates to the caller (if any) and the list of
close errors that were logged and swallowed.  `closeError` is the exception
`self.close()` raises, if any. -/
def session_exit (address : String) (sessionTimeout : String)
    (primary : Option PyExc) (closeError : Option PyExc) :
    Option PyExc × List PyExc :=
  let primary2 := match primary with
    | some v =>
      if v.kind = ExcKind.socketTimeout then
        some (update_timeout_exception address sessionTimeout none v)
      else some v
    | none => none
  match closeError with
  | none => (primary2, [])
  | some c =>
    match primary with
    | none => (some c, [])
    | some _ => (primary2, [c])

/-- C6: when the scope body raised and closing the connection also fails, the
close error is logged and swallowed and the body's exception propagates (it
is returned unchanged whenever it already carries its timeout annotation or
is not a raw socket timeout, the only touch ever applied being that
annotation); when only the close fails, the close error itself propagates. -/
theorem session_exit_close_error_policy (address sto : String)
    (p c : PyExc) :
    session_exit address sto (some p) (some c) =
      (some (if p.kind = ExcKind.socketTimeout then
        update_timeout_exception address sto none p else p), [c]) ∧
    (p.updated = true →
      session_exit address sto (some p) (some c) = (some p, [c])) ∧
    (p.kind ≠ ExcKind.socketTimeout →
      session_exit address sto (some p) (some c) = (some p, [c])) ∧
    session_exit address sto none (some c) = (some c, []) := by
  refine ⟨?_, fun h => ?_, fun h => ?_, rfl⟩
  · by_cases hk : p.kind = ExcKind.socketTimeout <;> simp [session_exit, hk]
  · simp [session_exit, update_timeout_exception, h]
  · simp [session_exit, h]

theorem session_exit_close_error_policy_witness :
    session_exit "addr" "10.0" (some ⟨ExcKind.other 7, ["boom"], false⟩)
        (some ⟨ExcKind.other 3, ["close failed"], false⟩) =
      (some ⟨ExcKind.other 7, ["boom"], false⟩,
        [⟨ExcKind.other 3, ["close failed"], false⟩]) ∧
    session_exit "addr" "10.0" none
        (some ⟨ExcKind.other 3, ["close failed"], false⟩) =
      (some ⟨ExcKind.other 3, ["close failed"], false⟩, []) := by
  have h := session_exit_close_error_policy "addr" "10.0"
    ⟨ExcKind.other 7, ["boom"], false⟩ ⟨ExcKind.other 3, ["close failed"], false⟩
  exact ⟨h.2.2.1 (by decide), h.2.2.2⟩

/- ===== Host user collection (host.py: Host.add_user) ===== -/

/-- Modelled from the spec: a Credential is an identity (full name) plus a
secret, compared by full name for de-duplication (user.py is absent from
src/; `Host.add_user` only calls `get_full_name`). -/
structure User where
  full_name : String
  password : String
deriving DecidableEq, Repr

/-- `Host.add_user` (host.py lines 165-175): the loop over a copy of the
collection removes every stored user whose full name equals the new user's
full name, then the new user is appended. -/
def add_user (users : List User) (user : User) : List User :=
  (users.filter (fun u => !(u.full_name == user.full_name))) ++ [user]

theorem foldl_add_user_filter (n : String) (us : List User) :
    ∀ acc : List User,
    (List.foldl add_user acc us).filter (fun u => u.full_name == n) =
      match (us.filter (fun u => u.full_name == n)).getLast? with
      | some u => [u]
      | none => acc.filter (fun u => u.full_name == n) := by
  induction us with
  | nil => intro acc; rfl
  | cons u us ih =>
    intro acc
    rw [List.foldl_cons, ih (add_user acc u)]
    by_cases hu : u.full_name = n
    · have hbase : (add_user acc u).filter (fun v => v.full_name == n) = [u] := by
        simp only [add_user, List.filter_append, List.filter_filter]
        have h0 : acc.filter
            (fun v => (v.full_name == n) && !(v.full_name == u.full_name)) = [] := by
          rw [List.filter_eq_nil_iff]
          intro v _
          by_cases hv : v.full_name = n <;> simp [hv, hu]
        rw [h0]
        simp [hu]
      rw [List.filter_cons_of_pos (by simp [hu])]
      cases hfl : us.filter (fun v => v.full_name == n) with
      | nil =>
        simp only [hfl, List.getLast?_nil]
        rw [hbase]
        rfl
      | cons w ws =>
        simp only [hfl, List.getLast?_cons_cons, List.getLast?_cons]
        rfl
    · have hbase : (add_user acc u).filter (fun v => v.full_name == n) =
          acc.filter (fun v => v.full_name == n) := by
        simp only [add_user, List.filter_append, List.filter_filter]
        have h1 : acc.filter
            (fun v => (v.full_name == n) && !(v.full_name == u.full_name)) =
            acc.filter (fun v => v.full_name == n) := by
          apply List.filter_congr
          intro v _
          by_cases hv : v.full_name = n
          · simp [hv]; exact fun h => hu (h ▸ hv ▸ rfl)
          · simp [hv]
        rw [h1]
        simp [hu]
      rw [hbase, List.filter_cons_of_neg (by simp [hu])]

/-- C9: starting from the empty collection of `Host.__init__`, after any
sequence of `Host.add_user` calls the collection holds at most one user per
distinct full name, and the user kept for a name is the last one added with
that name. -/
theorem add_user_at_most_one_per_name_last_wins (us : List User)
    (n : String) :
    ((List.foldl add_user [] us).filter
      (fun u => u.full_name == n)).length ≤ 1 ∧
    (List.foldl add_user [] us).filter (fun u => u.full_name == n) =
      match (us.filter (fun u => u.full_name == n)).getLast? with
      | some u => [u]
      | none => [] := by
  have h := foldl_add_user_filter n us []
  refine ⟨?_, h⟩
  rw [h]
  cases (us.filter (fun u => u.full_name == n)).getLast? <;> simp

/- ===== Output normalization and the command kernel (common.py, ssh.py) ===== -/

/-- Valid UTF-8 continuation byte. -/
def utf8Cont (b : Nat) : Bool := 0x80 ≤ b && b ≤ 0xBF

/-- Allowed second byte after a three-byte lead (excludes overlong forms and
surrogates, as the UTF-8 codec does). -/
def utf8Cont3 (b1 b2 : Nat) : Bool :=
  if b1 = 0xE0 then 0xA0 ≤ b2 && b2 ≤ 0xBF
  else if b1 = 0xED then 0x80 ≤ b2 && b2 ≤ 0x9F
  else utf8Cont b2

/-- Allowed second byte after a four-byte lead (excludes overlong forms and
code points past U+10FFFF). -/
def utf8Cont4 (b1 b2 : Nat) : Bool :=
  if b1 = 0xF0 then 0x90 ≤ b2 && b2 ≤ 0xBF
  else if b1 = 0xF4 then 0x80 ≤ b2 && b2 ≤ 0x8F
  else utf8Cont b2

def replacementChar : Nat := 0xFFFD

/-- Models `bytes.decode("utf-8", errors="replace")` as called by
`normalize_string` (common.py line 36): decodes well-formed sequences and
substitutes U+FFFD for each maximal ill-formed subpart instead of raising. -/
def utf8DecodeReplace : List Nat → List Nat
  | [] => []
  | b :: t =>
    if b < 0x80 then b :: utf8DecodeReplace t
    else if b < 0xC2 then replacementChar :: utf8DecodeReplace t
    else if b ≤ 0xDF then
      match t with
      | [] => [replacementChar]
      | b2 :: t2 =>
        if utf8Cont b2 then
          ((b - 0xC0) * 64 + (b2 - 0x80)) :: utf8DecodeReplace t2
        else replacementChar :: utf8DecodeReplace (b2 :: t2)
    else if b ≤ 0xEF then
      match t with
      | [] => [replacementChar]
      | b2 :: t2 =>
        if utf8Cont3 b b2 then
          match t2 with
          | [] => [replacementChar]
          | b3 :: t3 =>
            if utf8Cont b3 then
              ((b - 0xE0) * 4096 + (b2 - 0x80) * 64 + (b3 - 0x80)) ::
                utf8DecodeReplace t3
            else replacementChar :: utf8DecodeReplace (b3 :: t3)
        else replacementChar :: utf8DecodeReplace (b2 :: t2)
    else if b ≤ 0xF4 then
      match t with
      | [] => [replacementChar]
      | b2 :: t2 =>
        if utf8Cont4 b b2 then
          match t2 with
          | [] => [replacementChar]
          | b3 :: t3 =>
            if utf8Cont b3 then
              match t3 with
              | [] => [replacementChar]
              | b4 :: t4 =>
                if utf8Cont b4 then
                  ((b - 0xF0) * 262144 + (b2 - 0x80) * 4096 +
                    (b3 - 0x80) * 64 + (b4 - 0x80)) :: utf8DecodeReplace t4
                else replacementChar :: utf8DecodeReplace (b4 :: t4)
            else replacementChar :: utf8DecodeReplace (b3 :: t3)
        else replacementChar :: utf8DecodeReplace (b2 :: t2)
    else replacementChar :: utf8DecodeReplace t

/-- Models `str.encode("utf-8", errors="replace")` on one code point: the
standard encoding for scalar values, a question mark for anything the codec
cannot encode (lone surrogates). -/
def utf8EncodeChar (c : Nat) : List Nat :=
  if c < 0x80 then [c]
  else if c < 0x800 then [0xC0 + c / 64, 0x80 + c % 64]
  else if c < 0x10000 then
    if 0xD800 ≤ c && c ≤ 0xDFFF then [0x3F]
    else [0xE0 + c / 4096, 0x80 + (c / 64) % 64, 0x80 + c % 64]
  else if c < 0x110000 then
    [0xF0 + c / 262144, 0x80 + (c / 4096) % 64, 0x80 + (c / 64) % 64,
      0x80 + c % 64]
  else [0x3F]

def utf8Encode : List Nat → List Nat
  | [] => []
  | c :: cs => utf8EncodeChar c ++ utf8Encode cs

/-- A Python value as `normalize_string` distinguishes them: a byte string or
a text string (its code points). -/
inductive PyData where
  | bytes (bs : List Nat)
  | text (cs : List Nat)
deriving DecidableEq, Repr

/-- `normalize_string` (common.py lines 26-39): a byte string is decoded as
UTF-8 with replacement; a (then-)text value is encoded back to UTF-8. -/
def normalize_string : PyData → PyData
  | PyData.bytes bs => PyData.bytes (utf8Encode (utf8DecodeReplace bs))
  | PyData.text cs => PyData.bytes (utf8Encode cs)

def PyData.payload : PyData → List Nat
  | PyData.bytes bs => bs
  | PyData.text cs => cs

/-- Well-formedness checker for UTF-8 byte strings, mirroring the decoder
branch for branch but failing where the decoder would substitute. -/
def validUtf8 : List Nat → Bool
  | [] => true
  | b :: t =>
    if b < 0x80 then validUtf8 t
    else if b < 0xC2 then false
    else if b ≤ 0xDF then
      match t with
      | [] => false
      | b2 :: t2 => utf8Cont b2 && validUtf8 t2
    else if b ≤ 0xEF then
      match t with
      | [] => false
      | b2 :: t2 =>
        utf8Cont3 b b2 &&
          (match t2 with
          | [] => false
          | b3 :: t3 => utf8Cont b3 && validUtf8 t3)
    else if b ≤ 0xF4 then
      match t with
      | [] => false
      | b2 :: t2 =>
        utf8Cont4 b b2 &&
          (match t2 with
          | [] => false
          | b3 :: t3 =>
            utf8Cont b3 &&
              (match t3 with
              | [] => false
              | b4 :: t4 => utf8Cont b4 && validUtf8 t4))
    else false
theorem validUtf8_cons_ascii (b : Nat) (t : List Nat) (h : b < 0x80) :
    validUtf8 (b :: t) = validUtf8 t := by
  conv_lhs => rw [validUtf8.eq_def]
  simp [h]

theorem validUtf8_cons_two (b b2 : Nat) (t : List Nat) (h1 : 0xC2 ≤ b)
    (h2 : b ≤ 0xDF) :
    validUtf8 (b :: b2 :: t) = (utf8Cont b2 && validUtf8 t) := by
  conv_lhs => rw [validUtf8.eq_def]
  have g1 : ¬ b < 0x80 := by omega
  have g2 : ¬ b < 0xC2 := by omega
  simp [g1, g2, h2]

theorem validUtf8_cons_three (b b2 b3 : Nat) (t : List Nat) (h1 : 0xE0 ≤ b)
    (h2 : b ≤ 0xEF) :
    validUtf8 (b :: b2 :: b3 :: t) =
      (utf8Cont3 b b2 && (utf8Cont b3 && validUtf8 t)) := by
  conv_lhs => rw [validUtf8.eq_def]
  have g1 : ¬ b < 0x80 := by omega
  have g2 : ¬ b < 0xC2 := by omega
  have g3 : ¬ b ≤ 0xDF := by omega
  simp [g1, g2, g3, h2]

theorem validUtf8_cons_four (b b2 b3 b4 : Nat) (t : List Nat) (h1 : 0xF0 ≤ b)
    (h2 : b ≤ 0xF4) :
    validUtf8 (b :: b2 :: b3 :: b4 :: t) =
      (utf8Cont4 b b2 && (utf8Cont b3 && (utf8Cont b4 && validUtf8 t))) := by
  conv_lhs => rw [validUtf8.eq_def]
  have g1 : ¬ b < 0x80 := by omega
  have g2 : ¬ b < 0xC2 := by omega
  have g3 : ¬ b ≤ 0xDF := by omega
  have g4 : ¬ b ≤ 0xEF := by omega
  simp [g1, g2, g3, g4, h2]

theorem decode_replacement_of_invalid (bs : List Nat)
    (h : validUtf8 bs = false) : replacementChar ∈ utf8DecodeReplace bs := by
  induction bs using utf8DecodeReplace.induct
  case case1 =>
    rw [show validUtf8 [] = true from rfl] at h
    cases h
  case case2 b t hb ih =>
    rw [validUtf8_cons_ascii b t hb] at h
    have hd : utf8DecodeReplace (b :: t) = b :: utf8DecodeReplace t := by
      conv_lhs => rw [utf8DecodeReplace.eq_def]
      simp [hb]
    rw [hd]
    exact List.mem_cons_of_mem _ (ih h)
  case case3 b t h1 h2 ih =>
    have hd : utf8DecodeReplace (b :: t) =
        replacementChar :: utf8DecodeReplace t := by
      conv_lhs => rw [utf8DecodeReplace.eq_def]
      simp [h1, h2]
    rw [hd]
    exact List.mem_cons_self _ _
  case case4 b h1 h2 h3 =>
    have hd : utf8DecodeReplace [b] = [replacementChar] := by
      conv_lhs => rw [utf8DecodeReplace.eq_def]
      simp [h1, h2, h3]
    rw [hd]
    exact List.mem_cons_self _ _
  case case5 b h1 h2 h3 b2 t hc ih =>
    rw [validUtf8_cons_two b b2 t (by omega) h3] at h
    simp only [hc, Bool.true_and] at h
    have hd : utf8DecodeReplace (b :: b2 :: t) =
        ((b - 0xC0) * 64 + (b2 - 0x80)) :: utf8DecodeReplace t := by
      conv_lhs => rw [utf8DecodeReplace.eq_def]
      simp [h1, h2, h3, hc]
    rw [hd]
    exact List.mem_cons_of_mem _ (ih h)
  case case6 b h1 h2 h3 b2 t hc ih =>
    have hd : utf8DecodeReplace (b :: b2 :: t) =
        replacementChar :: utf8DecodeReplace (b2 :: t) := by
      conv_lhs => rw [utf8DecodeReplace.eq_def]
      simp [h1, h2, h3, hc]
    rw [hd]
    exact List.mem_cons_self _ _
  case case7 b h1 h2 h3 h4 =>
    have hd : utf8DecodeReplace [b] = [replacementChar] := by
      conv_lhs => rw [utf8DecodeReplace.eq_def]
      simp [h1, h2, h3, h4]
    rw [hd]
    exact List.mem_cons_self _ _
  case case8 b h1 h2 h3 h4 b2 hc =>
    have hd : utf8DecodeReplace [b, b2] = [replacementChar] := by
      conv_lhs => rw [utf8DecodeReplace.eq_def]
      simp [h1, h2, h3, h4, hc]
    rw [hd]
    exact List.mem_cons_self _ _
  case case9 b h1 h2 h3 h4 b2 hc3 b3 t hc ih =>
    rw [validUtf8_cons_three b b2 b3 t (by omega) h4] at h
    simp only [hc3, hc, Bool.true_and] at h
    have hd : utf8DecodeReplace (b :: b2 :: b3 :: t) =
        ((b - 0xE0) * 4096 + (b2 - 0x80) * 64 + (b3 - 0x80)) ::
          utf8DecodeReplace t := by
      conv_lhs => rw [utf8DecodeReplace.eq_def]
      simp [h1, h2, h3, h4, hc3, hc]
    rw [hd]
    exact List.mem_cons_of_mem _ (ih h)
  case case10 b h1 h2 h3 h4 b2 hc3 b3 t hc ih =>
    have hd : utf8DecodeReplace (b :: b2 :: b3 :: t) =
        replacementChar :: utf8DecodeReplace (b3 :: t) := by
      conv_lhs => rw [utf8DecodeReplace.eq_def]
      simp [h1, h2, h3, h4, hc3, hc]
    rw [hd]
    exact List.mem_cons_self _ _
  case case11 b h1 h2 h3 h4 b2 t hc3 ih =>
    have hd : utf8DecodeReplace (b :: b2 :: t) =
        replacementChar :: utf8DecodeReplace (b2 :: t) := by
      conv_lhs => rw [utf8DecodeReplace.eq_def]
      simp [h1, h2, h3, h4, hc3]
    rw [hd]
    exact List.mem_cons_self _ _
  case case12 b h1 h2 h3 h4 h5 =>
    have hd : utf8DecodeReplace [b] = [replacementChar] := by
      conv_lhs => rw [utf8DecodeReplace.eq_def]
      simp [h1, h2, h3, h4, h5]
    rw [hd]
    exact List.mem_cons_self _ _
  case case13 b h1 h2 h3 h4 h5 b2 hc =>
    have hd : utf8DecodeReplace [b, b2] = [replacementChar] := by
      conv_lhs => rw [utf8DecodeReplace.eq_def]
      simp [h1, h2, h3, h4, h5, hc]
    rw [hd]
    exact List.mem_cons_self _ _
  case case14 b h1 h2 h3 h4 h5 b2 hc2 b3 hc =>
    have hd : utf8DecodeReplace [b, b2, b3] = [replacementChar] := by
      conv_lhs => rw [utf8DecodeReplace.eq_def]
      simp [h1, h2, h3, h4, h5, hc2, hc]
    rw [hd]
    exact List.mem_cons_self _ _
  case case15 b h1 h2 h3 h4 h5 b2 hc2 b3 hc3 b4 t hc ih =>
    rw [validUtf8_cons_four b b2 b3 b4 t (by omega) h5] at h
    simp only [hc2, hc3, hc, Bool.true_and] at h
    have hd : utf8DecodeReplace (b :: b2 :: b3 :: b4 :: t) =
        ((b - 0xF0) * 262144 + (b2 - 0x80) * 4096 + (b3 - 0x80) * 64 +
          (b4 - 0x80)) :: utf8DecodeReplace t := by
      conv_lhs => rw [utf8DecodeReplace.eq_def]
      simp [h1, h2, h3, h4, h5, hc2, hc3, hc]
    rw [hd]
    exact List.mem_cons_of_mem _ (ih h)
  case case16 b h1 h2 h3 h4 h5 b2 hc2 b3 hc3 b4 t hc ih =>
    have hd : utf8DecodeReplace (b :: b2 :: b3 :: b4 :: t) =
        replacementChar :: utf8DecodeReplace (b4 :: t) := by
      conv_lhs => rw [utf8DecodeReplace.eq_def]
      simp [h1, h2, h3, h4, h5, hc2, hc3, hc]
    rw [hd]
    exact List.mem_cons_self _ _
  case case17 b h1 h2 h3 h4 h5 b2 hc2 b3 t hc ih =>
    have hd : utf8DecodeReplace (b :: b2 :: b3 :: t) =
        replacementChar :: utf8DecodeReplace (b3 :: t) := by
      conv_lhs => rw [utf8DecodeReplace.eq_def]
      simp [h1, h2, h3, h4, h5, hc2, hc]
    rw [hd]
    exact List.mem_cons_self _ _
  case case18 b h1 h2 h3 h4 h5 b2 t hc ih =>
    have hd : utf8DecodeReplace (b :: b2 :: t) =
        replacementChar :: utf8DecodeReplace (b2 :: t) := by
      conv_lhs => rw [utf8DecodeReplace.eq_def]
      simp [h1, h2, h3, h4, h5, hc]
    rw [hd]
    exact List.mem_cons_self _ _
  case case19 b t h1 h2 h3 h4 h5 ih =>
    have hd : utf8DecodeReplace (b :: t) =
        replacementChar :: utf8DecodeReplace t := by
      conv_lhs => rw [utf8DecodeReplace.eq_def]
      simp [h1, h2, h3, h4, h5]
    rw [hd]
    exact List.mem_cons_self _ _

theorem validUtf8_utf8Encode_char_append (c : Nat) (rest : List Nat) :
    validUtf8 (utf8EncodeChar c ++ rest) = validUtf8 rest := by
  by_cases h1 : c < 0x80
  · rw [utf8EncodeChar, if_pos h1]
    exact validUtf8_cons_ascii c rest h1
  · by_cases h2 : c < 0x800
    · rw [utf8EncodeChar, if_neg h1, if_pos h2]
      simp only [List.cons_append, List.nil_append]
      rw [validUtf8_cons_two _ _ _ (by omega) (by omega)]
      have g1 : 0x80 ≤ 0x80 + c % 64 := by omega
      have g2 : 0x80 + c % 64 ≤ 0xBF := by omega
      simp [utf8Cont, g1, g2]
    · by_cases h3 : c < 0x10000
      · by_cases hs : (0xD800 ≤ c && c ≤ 0xDFFF) = true
        · rw [utf8EncodeChar, if_neg h1, if_neg h2, if_pos h3, if_pos hs]
          simp only [List.cons_append, List.nil_append]
          exact validUtf8_cons_ascii _ rest (by omega)
        · have hsb := eq_false_of_ne_true hs
          rw [utf8EncodeChar, if_neg h1, if_neg h2, if_pos h3, if_neg hs]
          simp only [List.cons_append, List.nil_append]
          rw [validUtf8_cons_three _ _ _ _ (by omega) (by omega)]
          have hsn : ¬(0xD800 ≤ c ∧ c ≤ 0xDFFF) := by
            intro hx
            simp [hx.1, hx.2] at hsb
          have hc3 : utf8Cont3 (0xE0 + c / 4096) (0x80 + c / 64 % 64) = true := by
            simp only [utf8Cont3, utf8Cont]
            by_cases hz : c / 4096 = 0
            · rw [if_pos (by omega : 0xE0 + c / 4096 = 0xE0)]
              have g1 : 0xA0 ≤ 0x80 + c / 64 % 64 := by omega
              have g2 : 0x80 + c / 64 % 64 ≤ 0xBF := by omega
              simp [g1, g2]
            · by_cases hd : c / 4096 = 13
              · rw [if_neg (by omega : ¬(0xE0 + c / 4096 = 0xE0)),
                  if_pos (by omega : 0xE0 + c / 4096 = 0xED)]
                have g1 : 0x80 ≤ 0x80 + c / 64 % 64 := by omega
                have g2 : 0x80 + c / 64 % 64 ≤ 0x9F := by omega
                simp [g1, g2]
              · rw [if_neg (by omega : ¬(0xE0 + c / 4096 = 0xE0)),
                  if_neg (by omega : ¬(0xE0 + c / 4096 = 0xED))]
                have g1 : 0x80 ≤ 0x80 + c / 64 % 64 := by omega
                have g2 : 0x80 + c / 64 % 64 ≤ 0xBF := by omega
                simp [g1, g2]
          have g1 : 0x80 ≤ 0x80 + c % 64 := by omega
          have g2 : 0x80 + c % 64 ≤ 0xBF := by omega
          simp [hc3, utf8Cont, g1, g2]
      · by_cases h4 : c < 0x110000
        · rw [utf8EncodeChar, if_neg h1, if_neg h2, if_neg h3, if_pos h4]
          simp only [List.cons_append, List.nil_append]
          rw [validUtf8_cons_four _ _ _ _ _ (by omega) (by omega)]
          have hc4 : utf8Cont4 (0xF0 + c / 262144) (0x80 + c / 4096 % 64) = true := by
            simp only [utf8Cont4, utf8Cont]
            by_cases hz : c / 262144 = 0
            · rw [if_pos (by omega : 0xF0 + c / 262144 = 0xF0)]
              have g1 : 0x90 ≤ 0x80 + c / 4096 % 64 := by omega
              have g2 : 0x80 + c / 4096 % 64 ≤ 0xBF := by omega
              simp [g1, g2]
            · by_cases hf : c / 262144 = 4
              · rw [if_neg (by omega : ¬(0xF0 + c / 262144 = 0xF0)),
                  if_pos (by omega : 0xF0 + c / 262144 = 0xF4)]
                have g1 : 0x80 ≤ 0x80 + c / 4096 % 64 := by omega
                have g2 : 0x80 + c / 4096 % 64 ≤ 0x8F := by omega
                simp [g1, g2]
              · rw [if_neg (by omega : ¬(0xF0 + c / 262144 = 0xF0)),
                  if_neg (by omega : ¬(0xF0 + c / 262144 = 0xF4))]
                have g1 : 0x80 ≤ 0x80 + c / 4096 % 64 := by omega
                have g2 : 0x80 + c / 4096 % 64 ≤ 0xBF := by omega
                simp [g1, g2]
          have g1 : 0x80 ≤ 0x80 + c / 64 % 64 := by omega
          have g2 : 0x80 + c / 64 % 64 ≤ 0xBF := by omega
          have g3 : 0x80 ≤ 0x80 + c % 64 := by omega
          have g4 : 0x80 + c % 64 ≤ 0xBF := by omega
          simp [hc4, utf8Cont, g1, g2, g3, g4]
        · rw [utf8EncodeChar, if_neg h1, if_neg h2, if_neg h3, if_neg h4]
          simp only [List.cons_append, List.nil_append]
          exact validUtf8_cons_ascii _ rest (by omega)

theorem validUtf8_utf8Encode (cs : List Nat) :
    validUtf8 (utf8Encode cs) = true := by
  induction cs with
  | nil => rfl
  | cons c cs ih => rw [utf8Encode, validUtf8_utf8Encode_char_append, ih]

/-- One `readline` on the stdout stream: the bytes up to and including the
first newline, and the rest. -/
def breakLine : List Nat → List Nat × List Nat
  | [] => ([], [])
  | b :: t =>
    if b = 10 then ([b], t)
    else
      let r := breakLine t
      (b :: r.1, r.2)

theorem breakLine_append (l : List Nat) :
    (breakLine l).1 ++ (breakLine l).2 = l := by
  induction l with
  | nil => rfl
  | cons b t ih => by_cases hb : b = 10 <;> simp [breakLine, hb, ih]

theorem breakLine_snd_length (l : List Nat) :
    (breakLine l).2.length ≤ l.length := by
  induction l with
  | nil => exact Nat.le_refl _
  | cons b t ih =>
    by_cases hb : b = 10
    · simp [breakLine, hb]
    · simp [breakLine, hb]
      omega

theorem breakLine_snd_length_lt (b : Nat) (t : List Nat) :
    (breakLine (b :: t)).2.length < (b :: t).length := by
  have h := breakLine_snd_length t
  by_cases hb : b = 10
  · simp [breakLine, hb]
  · simp [breakLine, hb]
    omega

/-- The line loop of `run_real_time` (ssh.py line 223,
`iter(out.readline, "")`): the stdout stream as the sequence of lines
`readline` yields until it returns the empty sentinel. -/
def readLines : List Nat → List (List Nat)
  | [] => []
  | b :: t =>
    (breakLine (b :: t)).1 :: readLines (breakLine (b :: t)).2
termination_by l => l.length
decreasing_by
  exact breakLine_snd_length_lt _ _

theorem readLines_join (l : List Nat) : (readLines l).flatten = l := by
  induction l using readLines.induct with
  | case1 => rw [readLines]; rfl
  | case2 b t ih =>
    rw [readLines, List.flatten_cons, ih, breakLine_append]

/-- The streams of one executed remote command: full stdout bytes, full
stderr bytes, and the exit status the channel reports. -/
structure Streams where
  outBytes : List Nat
  errBytes : List Nat
  exitStatus : Int

/-- `Command.run` (ssh.py lines 202-211): reads stdout and stderr in full and
normalizes both. -/
def Command.run (s : Streams) : Int × PyData × PyData :=
  (s.exitStatus, normalize_string (PyData.bytes s.outBytes),
    normalize_string (PyData.bytes s.errBytes))

/-- `Command.run_real_time` (ssh.py lines 213-229): accumulates stdout line by
line from `readline`, then reads stderr in full with `err.read()`, and
normalizes both. -/
def Command.run_real_time (s : Streams) : Int × PyData × PyData :=
  (s.exitStatus,
    normalize_string (PyData.bytes ((readLines s.outBytes).flatten)),
    normalize_string (PyData.bytes s.errBytes))

/-- C8: both execution modes return UTF-8-normalized output — the normalized
bytes are always well-formed UTF-8, an ill-formed input having its invalid
sequences replaced by U+FFFD rather than raising — and the streaming mode
returns the very same triple as the blocking mode: in particular stderr is
captured in full after completion even when stdout was consumed line by
line. -/
theorem command_runs_normalized_utf8_full_stderr (s : Streams)
    (bs : List Nat) :
    Command.run_real_time s = Command.run s ∧
    (Command.run s).2.2 = normalize_string (PyData.bytes s.errBytes) ∧
    (Command.run_real_time s).2.2 =
      normalize_string (PyData.bytes s.errBytes) ∧
    validUtf8 (normalize_string (PyData.bytes bs)).payload = true ∧
    (validUtf8 bs = false → replacementChar ∈ utf8DecodeReplace bs) := by
  refine ⟨?_, rfl, rfl, ?_, decode_replacement_of_invalid bs⟩
  · rw [Command.run_real_time, Command.run, readLines_join]
  · exact validUtf8_utf8Encode (utf8DecodeReplace bs)

theorem command_runs_normalized_utf8_full_stderr_witness :
    validUtf8 [0xC3, 0x28, 0x61] = false ∧
    replacementChar ∈ utf8DecodeReplace [0xC3, 0x28, 0x61] ∧
    normalize_string (PyData.bytes [0xC3, 0x28, 0x61]) =
      PyData.bytes [0xEF, 0xBF, 0xBD, 0x28, 0x61] := by
  refine ⟨by decide, ?_, by decide⟩
  exact (command_runs_normalized_utf8_full_stderr ⟨[], [], 0⟩
    [0xC3, 0x28, 0x61]).2.2.2.2 (by decide)
